import Mathlib

/-!
Verification of the `capture` package (capture.go): a capture session
(`CaptureOuts`) that launches a child process, drains its stdout and stderr
concurrently through two stream readers, segments the byte streams into
lines, and exposes snapshot accessors.

Shallow embedding notes:
  * Go strings are modelled as Lean `String`; a Go byte slice of
    concatenated strings is modelled as the concatenated `String`.
  * `bufio.Reader.ReadString` results are modelled as a list of
    `(chunk, error?)` pairs: each call returns the bytes read and,
    when the delimiter was not found, the error that ended the call
    (`io.EOF` or another I/O error).
  * The shared log mutations (all performed under `c.mut`) are the atomic
    steps of the session; `ReaderStep` below enumerates them, and any
    interleaving of the two readers is a chain of such steps.
-/

namespace Capture

/-- An error returned by a read on a stream: end-of-stream (`io.EOF`)
or any other I/O error. -/
inductive ReadErr where
  | eof
  | other (msg : String)
deriving DecidableEq

/-- The two pending-fragment slots, `halfline[0]` (stdout) and
`halfline[1]` (stderr) in the Go struct. -/
structure Halves where
  hout : Option String
  herr : Option String
deriving DecidableEq

/-- The observable state of a `CaptureOuts` session: the shared line log
(`lines`, `isStdErr`), the per-stream pending fragments (`halfline`),
and the terminal error (`Err`). -/
structure CaptureOuts where
  lines    : List String
  isStdErr : List Bool
  halfline : Halves
  Err      : Option String
deriving DecidableEq

/-- `NewCaptureOuts()`: empty log, no pending fragments, no error. -/
def newCaptureOuts : CaptureOuts :=
  { lines := [], isStdErr := [], halfline := ⟨none, none⟩, Err := none }

/-- Read the pending slot for a stream (`c.halfline[a]`, where
`a = 0` for stdout and `a = 1` for stderr). -/
def getHL (c : CaptureOuts) (isStdout : Bool) : Option String :=
  if isStdout then c.halfline.hout else c.halfline.herr

/-- Write the pending slot for a stream (`c.halfline[a] = v`). -/
def setHL (c : CaptureOuts) (isStdout : Bool) (v : Option String) : CaptureOuts :=
  if isStdout then { c with halfline := { c.halfline with hout := v } }
  else { c with halfline := { c.halfline with herr := v } }

/-- The one locked mutation of the shared log:
`c.lines = append(c.lines, line); c.isStdErr = append(c.isStdErr, !isStdout)`.
Both appends happen inside a single `c.mut.Lock()` section. -/
def appendLine (c : CaptureOuts) (line : String) (isStdout : Bool) : CaptureOuts :=
  { c with lines := c.lines ++ [line], isStdErr := c.isStdErr ++ [!isStdout] }

/-- `strings.HasSuffix(line, "\n")`: true iff the last byte of `line`
is the newline terminator. -/
def hasSuffixNewline (line : String) : Bool :=
  match line.data.getLast? with
  | some ch => ch == '\n'
  | none => false

/-- Body of one iteration of the inner read loop of `capture` for the
chunk returned by `ReadString`:
if the chunk ends in the terminator, append it as a complete line,
prepending and clearing any pending fragment; otherwise, if the chunk is
non-empty, store it as the pending fragment (overwriting the slot). -/
def captureStep (isStdout : Bool) (line : String) (c : CaptureOuts) : CaptureOuts :=
  if hasSuffixNewline line then
    match getHL c isStdout with
    | some h => appendLine (setHL c isStdout none) (h ++ line) isStdout
    | none => appendLine c line isStdout
  else if line = "" then c
  else setHL c isStdout (some line)

/-- The flush performed when the inner read loop exits with an error:
`if c.halfline[a] != nil && *c.halfline[a] != "" { append it }`.
Note the Go code does not clear the slot here. -/
def flushHalf (isStdout : Bool) (c : CaptureOuts) : CaptureOuts :=
  match getHL c isStdout with
  | some h => if h = "" then c else appendLine c h isStdout
  | none => c

/-- The reader goroutine body of `capture`, run against a list of
`ReadString` results. The inner loop consumes reads while the error is
nil; on an error it flushes the pending fragment and then returns only
when the error is `io.EOF` — on any other error the outer loop
re-enters the read loop. An exhausted list models a reader still
blocked on its stream. -/
def captureLoop (isStdout : Bool) : List (String × Option ReadErr) → CaptureOuts → CaptureOuts
  | [], c => c
  | (line, e) :: rest, c =>
    let c1 := captureStep isStdout line c
    match e with
    | none => captureLoop isStdout rest c1
    | some ReadErr.eof => flushHalf isStdout c1
    | some (ReadErr.other _) => captureLoop isStdout rest (flushHalf isStdout c1)

/-- `GetComboOutSoFar`: under the lock, copy `c.lines`, and copy
`c.isStdErr` only when requested, returning nil (`none`) otherwise. -/
def getComboOutSoFar (c : CaptureOuts) (getIsStdErrorSlice : Bool) :
    List String × Option (List Bool) :=
  (c.lines, if getIsStdErrorSlice then some c.isStdErr else none)

/-- `BytesSoFar`: write every string of `c.lines` into a buffer and
return its contents. -/
def bytesSoFar (c : CaptureOuts) : String :=
  c.lines.foldl (fun b v => b ++ v) ""

/-- The `ReadString` results produced by a stream whose whole content is
a list of terminator-ended chunks followed by a final remainder:
each complete line is returned with a nil error, and the final call
returns the remainder (possibly empty) together with `io.EOF`. -/
def eofReads (chunks : List String) (rem : String) : List (String × Option ReadErr) :=
  chunks.map (fun l => (l, none)) ++ [(rem, some ReadErr.eof)]

/-- The behaviour of the child process as seen by `Exec`: whether
`cmd.Start()` fails, the read results each pipe yields, and whether
`cmd.Wait()` fails. -/
structure ChildProc where
  startErr : Option String
  stdoutReads : List (String × Option ReadErr)
  stderrReads : List (String × Option ReadErr)
  waitErr : Option String

/-- The synchronisation events of one `Exec` call. -/
inductive ExecEvent where
  | readerLaunched (isStdout : Bool)
  | startCalled
  | startFailed
  | readerDone (isStdout : Bool)
  | waitGroupJoined
  | waitCalled
deriving DecidableEq

/-- The event trace of `Exec`. The code launches both reader goroutines
(`c.capture(...)`) and then calls `cmd.Start()`. On a start failure it
records the error and returns. Otherwise `c.wg.Wait()` blocks until
both readers have called `wg.Done`, so in every admissible interleaving
both `readerDone` events precede `waitGroupJoined`, which precedes the
`cmd.Wait()` call; the Boolean parameter ranges over the one order
freedom between the two readers. -/
def execTrace (p : ChildProc) (stdoutDoneFirst : Bool) : List ExecEvent :=
  [ExecEvent.readerLaunched true, ExecEvent.readerLaunched false,
   ExecEvent.startCalled] ++
  match p.startErr with
  | some _ => [ExecEvent.startFailed]
  | none =>
    (if stdoutDoneFirst then
      [ExecEvent.readerDone true, ExecEvent.readerDone false]
     else
      [ExecEvent.readerDone false, ExecEvent.readerDone true]) ++
    [ExecEvent.waitGroupJoined, ExecEvent.waitCalled]

/-- The final session state computed by `Exec`: on a start failure only
`c.Err` is set; otherwise both readers drain their pipes (shown here in
the stdout-first serialisation — the interleaving affects only the
relative order of lines from different streams), and a `cmd.Wait()`
failure sets `c.Err` without touching the log. -/
def execRun (p : ChildProc) : CaptureOuts :=
  match p.startErr with
  | some e =>
    { newCaptureOuts with
        Err := some ("error in CaptureOuts.Exec(): cmd.Start() failed with " ++ e) }
  | none =>
    let c2 := captureLoop false p.stderrReads
      (captureLoop true p.stdoutReads newCaptureOuts)
    match p.waitErr with
    | some e =>
      { c2 with
          Err := some ("error in CaptureOuts.Exec(): cmd.Wait() failed with err=" ++ e) }
    | none => c2

/-- One atomic mutation of the session state by a stream reader: either
the handling of one `ReadString` chunk or the flush performed when a
read error ends the inner loop. Any interleaving of the two concurrent
readers is a chain of such steps. -/
inductive ReaderStep : CaptureOuts → CaptureOuts → Prop where
  | step (isStdout : Bool) (line : String) (c : CaptureOuts) :
      ReaderStep c (captureStep isStdout line c)
  | flush (isStdout : Bool) (c : CaptureOuts) :
      ReaderStep c (flushHalf isStdout c)

/-- Reachability of one session state from another through reader steps. -/
def Reaches : CaptureOuts → CaptureOuts → Prop :=
  Relation.ReflTransGen ReaderStep

-- Basic facts about the state helpers.

theorem setHL_lines (c : CaptureOuts) (b : Bool) (v : Option String) :
    (setHL c b v).lines = c.lines := by
  unfold setHL; split <;> rfl

theorem setHL_isStdErr (c : CaptureOuts) (b : Bool) (v : Option String) :
    (setHL c b v).isStdErr = c.isStdErr := by
  unfold setHL; split <;> rfl

theorem getHL_setHL_same (c : CaptureOuts) (b : Bool) (v : Option String) :
    getHL (setHL c b v) b = v := by
  unfold getHL setHL; cases b <;> simp

theorem appendLine_lines (c : CaptureOuts) (s : String) (b : Bool) :
    (appendLine c s b).lines = c.lines ++ [s] := rfl

theorem appendLine_isStdErr (c : CaptureOuts) (s : String) (b : Bool) :
    (appendLine c s b).isStdErr = c.isStdErr ++ [!b] := rfl

theorem getHL_appendLine (c : CaptureOuts) (s : String) (b b2 : Bool) :
    getHL (appendLine c s b) b2 = getHL c b2 := rfl

/-- Every reader step either leaves the log alone or appends exactly one
line together with its origin tag. -/
theorem readerStep_log (c c2 : CaptureOuts) (h : ReaderStep c c2) :
    (c2.lines = c.lines ∧ c2.isStdErr = c.isStdErr) ∨
    (∃ s b, c2.lines = c.lines ++ [s] ∧ c2.isStdErr = c.isStdErr ++ [!b]) := by
  cases h with
  | step isStdout line c =>
    unfold captureStep
    split
    · cases hg : getHL c isStdout with
      | some hd =>
        right
        exact ⟨hd ++ line, isStdout, by
          simp [hg, appendLine_lines, setHL_lines], by
          simp [hg, appendLine_isStdErr, setHL_isStdErr]⟩
      | none =>
        right
        exact ⟨line, isStdout, by simp [hg, appendLine_lines], by
          simp [hg, appendLine_isStdErr]⟩
    · split
      · left; exact ⟨rfl, rfl⟩
      · left; exact ⟨setHL_lines .., setHL_isStdErr ..⟩
  | flush isStdout c =>
    cases hg : getHL c isStdout with
    | some hd =>
      by_cases he : hd = ""
      · left; constructor <;> simp [flushHalf, hg, he]
      · right
        exact ⟨hd, isStdout, by simp [flushHalf, hg, he, appendLine_lines],
          by simp [flushHalf, hg, he, appendLine_isStdErr]⟩
    | none => left; constructor <;> simp [flushHalf, hg]

/-- A reader step preserves equality of the two log lengths. -/
theorem readerStep_len (c c2 : CaptureOuts) (h : ReaderStep c c2)
    (h0 : c.lines.length = c.isStdErr.length) :
    c2.lines.length = c2.isStdErr.length := by
  rcases readerStep_log c c2 h with ⟨h1, h2⟩ | ⟨s, b, h1, h2⟩ <;>
    simp [h1, h2, h0]

/-- A reader step only extends the line log. -/
theorem readerStep_extends (c c2 : CaptureOuts) (h : ReaderStep c c2) :
    c.lines <+: c2.lines := by
  rcases readerStep_log c c2 h with ⟨h1, _⟩ | ⟨s, b, h1, _⟩
  · rw [h1]
  · rw [h1]; exact List.prefix_append _ _

theorem reaches_len (c c2 : CaptureOuts) (h : Reaches c c2)
    (h0 : c.lines.length = c.isStdErr.length) :
    c2.lines.length = c2.isStdErr.length := by
  induction h with
  | refl => exact h0
  | tail _ hstep ih => exact readerStep_len _ _ hstep ih

theorem reaches_extends (c c2 : CaptureOuts) (h : Reaches c c2) :
    c.lines <+: c2.lines := by
  induction h with
  | refl => exact List.prefix_rfl
  | tail _ hstep ih => exact ih.trans (readerStep_extends _ _ hstep)

/-- Draining a clean stream (every chunk terminator-ended, then a final
remainder with `io.EOF`) from a state with no pending fragment appends
exactly the chunks, each intact, followed by the remainder (if
non-empty) as the terminal terminator-less line, all tagged with this
stream. -/
theorem captureLoop_clean (b : Bool) (chunks : List String) :
    ∀ (rem : String) (c : CaptureOuts),
      (∀ l ∈ chunks, hasSuffixNewline l = true) →
      hasSuffixNewline rem = false →
      getHL c b = none →
      (captureLoop b (eofReads chunks rem) c).lines
        = c.lines ++ chunks ++ (if rem = "" then [] else [rem]) ∧
      (captureLoop b (eofReads chunks rem) c).isStdErr
        = c.isStdErr ++ chunks.map (fun _ => !b)
            ++ (if rem = "" then [] else [!b]) := by
  induction chunks with
  | nil =>
    intro rem c _ hr hg
    by_cases he : rem = ""
    · subst he
      constructor <;> simp [eofReads, captureLoop, captureStep,
        hasSuffixNewline, flushHalf, hg]
    · have hrun : captureLoop b (eofReads [] rem) c
          = appendLine (setHL c b (some rem)) rem b := by
        simp [eofReads, captureLoop, captureStep, hr, he, flushHalf,
          getHL_setHL_same]
      rw [hrun]
      constructor <;> simp [appendLine_lines, appendLine_isStdErr,
        setHL_lines, setHL_isStdErr, he]
  | cons l ls ih =>
    intro rem c hc hr hg
    have hl : hasSuffixNewline l = true := hc l (by simp)
    have hc2 : ∀ x ∈ ls, hasSuffixNewline x = true := by
      intro x hx; exact hc x (by simp [hx])
    have hstep : captureLoop b (eofReads (l :: ls) rem) c
        = captureLoop b (eofReads ls rem) (appendLine c l b) := by
      simp [eofReads, captureLoop, captureStep, hl, hg]
    rw [hstep]
    have hg2 : getHL (appendLine c l b) b = none := by
      rw [getHL_appendLine]; exact hg
    obtain ⟨e1, e2⟩ := ih rem (appendLine c l b) hc2 hr hg2
    constructor
    · rw [e1]; simp [appendLine_lines]
    · rw [e2]; simp [appendLine_isStdErr]

/-- C1 counterexample: reading `"ab"` followed by end-of-stream flushes
the pending fragment as the final line, but the pending slot is NOT
cleared afterwards (the claim states it is cleared). -/
theorem capture_eof_slot_not_cleared :
    (captureLoop true [("ab", some ReadErr.eof)] newCaptureOuts).lines = ["ab"] ∧
    getHL (captureLoop true [("ab", some ReadErr.eof)] newCaptureOuts) true ≠ none := by
  decide

/-- C1 (amended): on end-of-stream the reader flushes a non-empty pending
fragment as a final terminator-less line tagged with its origin and then
terminates, processing no further reads; the pending slot is left
unchanged rather than cleared, which is unobservable because the reader
terminates. -/
theorem capture_eof_flush_and_terminate :
    (∀ (c : CaptureOuts) (isStdout : Bool) (line : String)
        (rest : List (String × Option ReadErr)),
        captureLoop isStdout ((line, some ReadErr.eof) :: rest) c
          = flushHalf isStdout (captureStep isStdout line c)) ∧
    (∀ (c : CaptureOuts) (isStdout : Bool) (hd : String),
        getHL c isStdout = some hd → hd ≠ "" →
        (flushHalf isStdout c).lines = c.lines ++ [hd] ∧
        (flushHalf isStdout c).isStdErr = c.isStdErr ++ [!isStdout]) := by
  constructor
  · intro c isStdout line rest; rfl
  · intro c isStdout hd hg hne
    constructor <;>
      simp [flushHalf, hg, hne, appendLine_lines, appendLine_isStdErr]

/-- Witness for C1 (amended) at a concrete state holding the pending
fragment `"ab"` for stdout. -/
theorem capture_eof_flush_and_terminate_witness :
    (flushHalf true (setHL newCaptureOuts true (some "ab"))).lines
      = (setHL newCaptureOuts true (some "ab")).lines ++ ["ab"] :=
  (capture_eof_flush_and_terminate.2 (setHL newCaptureOuts true (some "ab"))
    true "ab" (by decide) (by decide)).1

/-- C2: evaluation at the failing input. After `ReadString` returns
`("ab", non-EOF error)`, the reader flushes `"ab"`, does NOT terminate,
re-enters its loop, processes the following end-of-stream read and —
because the flushed fragment was not cleared — flushes `"ab"` a second
time. The claim (and the spec) say the reader ends early at the first
non-EOF error. -/
theorem capture_error_loop_reentered :
    (captureLoop true
      [("ab", some (ReadErr.other "read failed")), ("", some ReadErr.eof)]
      newCaptureOuts).lines = ["ab", "ab"] := by
  decide

/-- C3 counterexample: on a start-failure run, the very first events of
the `Exec` trace are the launches of both stream readers, before
`cmd.Start()` is even called — the claim states the readers are never
started on this path and are launched only after a successful start. -/
theorem exec_readers_launched_on_start_failure :
    (execTrace ⟨some "no such file", [], [], none⟩ true).head?
        = some (ExecEvent.readerLaunched true) ∧
    ExecEvent.readerLaunched false
        ∈ execTrace ⟨some "no such file", [], [], none⟩ true ∧
    ExecEvent.startFailed ∈ execTrace ⟨some "no such file", [], [], none⟩ true := by
  decide

/-- C3 (amended): in every execution of `Exec`, both stream readers are
launched BEFORE the child start is attempted, on the success path and on
the start-failure path alike. -/
theorem exec_readers_launched_before_start (p : ChildProc) (ord : Bool) :
    ∃ rest, execTrace p ord
      = [ExecEvent.readerLaunched true, ExecEvent.readerLaunched false,
         ExecEvent.startCalled] ++ rest :=
  ⟨_, rfl⟩

/-- C4: in every execution of `Exec` in which the child starts
successfully, `cmd.Wait()` is invoked only after both stream readers
have reported completion: every admissible trace ends with the
wait-group join followed by the wait call, and both reader-done events
lie strictly before them. -/
theorem exec_wait_after_readers (p : ChildProc) (ord : Bool)
    (h : p.startErr = none) :
    ∃ pre, execTrace p ord
        = pre ++ [ExecEvent.waitGroupJoined, ExecEvent.waitCalled] ∧
      ExecEvent.readerDone true ∈ pre ∧ ExecEvent.readerDone false ∈ pre ∧
      ExecEvent.waitCalled ∉ pre := by
  cases ord with
  | false =>
    exact ⟨[ExecEvent.readerLaunched true, ExecEvent.readerLaunched false,
      ExecEvent.startCalled, ExecEvent.readerDone false, ExecEvent.readerDone true],
      by simp [execTrace, h], by decide, by decide, by decide⟩
  | true =>
    exact ⟨[ExecEvent.readerLaunched true, ExecEvent.readerLaunched false,
      ExecEvent.startCalled, ExecEvent.readerDone true, ExecEvent.readerDone false],
      by simp [execTrace, h], by decide, by decide, by decide⟩

/-- Witness for C4 at a concrete successfully-starting child. -/
theorem exec_wait_after_readers_witness :
    ∃ pre, execTrace ⟨none, [], [], none⟩ true
        = pre ++ [ExecEvent.waitGroupJoined, ExecEvent.waitCalled] ∧
      ExecEvent.readerDone true ∈ pre ∧ ExecEvent.readerDone false ∈ pre ∧
      ExecEvent.waitCalled ∉ pre :=
  exec_wait_after_readers ⟨none, [], [], none⟩ true rfl

/-- C5: in every state reachable by reader steps from a state with
aligned logs (in particular from the fresh session), the lines log and
the origin log have equal length, and the pair returned by a snapshot
that requests the origin slice is index-aligned. -/
theorem lines_origin_aligned (c c2 : CaptureOuts)
    (h0 : c.lines.length = c.isStdErr.length) (h : Reaches c c2) :
    c2.lines.length = c2.isStdErr.length ∧
    (getComboOutSoFar c2 true).1.length
      = ((getComboOutSoFar c2 true).2.getD []).length := by
  have hl := reaches_len c c2 h h0
  exact ⟨hl, by simpa [getComboOutSoFar] using hl⟩

/-- Witness for C5 after one append step from the fresh session. -/
theorem lines_origin_aligned_witness :
    (captureStep true "hello\n" newCaptureOuts).lines.length
      = (captureStep true "hello\n" newCaptureOuts).isStdErr.length ∧
    (getComboOutSoFar (captureStep true "hello\n" newCaptureOuts) true).1.length
      = ((getComboOutSoFar (captureStep true "hello\n" newCaptureOuts) true).2.getD
          []).length :=
  lines_origin_aligned newCaptureOuts (captureStep true "hello\n" newCaptureOuts)
    rfl (Relation.ReflTransGen.single (ReaderStep.step true "hello\n" newCaptureOuts))

/-- C6: the log is append-only; across any chain of reader steps, the
lines returned by an earlier snapshot are a prefix of (hence unaltered
in) the lines returned by any later snapshot. -/
theorem snapshot_monotone (c c2 : CaptureOuts) (b b2 : Bool)
    (h : Reaches c c2) :
    (getComboOutSoFar c b).1 <+: (getComboOutSoFar c2 b2).1 := by
  simpa [getComboOutSoFar] using reaches_extends c c2 h

/-- Witness for C6: the empty snapshot is a prefix of the snapshot after
one append. -/
theorem snapshot_monotone_witness :
    (getComboOutSoFar newCaptureOuts true).1 <+:
      (getComboOutSoFar (captureStep false "err1\n" newCaptureOuts) true).1 :=
  snapshot_monotone newCaptureOuts (captureStep false "err1\n" newCaptureOuts)
    true true
    (Relation.ReflTransGen.single (ReaderStep.step false "err1\n" newCaptureOuts))

/-- C7: draining a stream from a clean slot stores every
terminator-ended line intact and in order, and stores a non-empty
terminator-less trailing run as the last line of that stream, all tagged
with the stream origin; moreover a pending fragment is prepended to the
next completed line. -/
theorem terminator_handling :
    (∀ (b : Bool) (chunks : List String) (rem : String) (c : CaptureOuts),
        (∀ l ∈ chunks, hasSuffixNewline l = true) →
        hasSuffixNewline rem = false →
        getHL c b = none →
        (captureLoop b (eofReads chunks rem) c).lines
          = c.lines ++ chunks ++ (if rem = "" then [] else [rem]) ∧
        (captureLoop b (eofReads chunks rem) c).isStdErr
          = c.isStdErr ++ chunks.map (fun _ => !b)
              ++ (if rem = "" then [] else [!b])) ∧
    (∀ (c : CaptureOuts) (b : Bool) (hd line : String),
        getHL c b = some hd → hasSuffixNewline line = true →
        (captureStep b line c).lines = c.lines ++ [hd ++ line]) := by
  constructor
  · intro b chunks rem c hc hr hg
    exact captureLoop_clean b chunks rem c hc hr hg
  · intro c b hd line hg hl
    simp [captureStep, hl, hg, appendLine_lines, setHL_lines]

/-- Witness for C7: scenario with one full line and a trailing
terminator-less run (`"hello\n"` then `"partial"` at end-of-stream). -/
theorem terminator_handling_witness :
    (captureLoop true (eofReads ["hello\n"] "partial") newCaptureOuts).lines
      = ["hello\n", "partial"] := by
  have h := (terminator_handling.1 true ["hello\n"] "partial" newCaptureOuts
    (by decide) (by decide) rfl).1
  simpa [newCaptureOuts] using h

/-- C8: when the child starts, emits output and `cmd.Wait()` fails, the
session records a non-nil terminal error while the snapshot after
completion is exactly the fully drained log — no captured line is
discarded or truncated, and emitted output stays non-empty. -/
theorem wait_failure_preserves_output (p : ChildProc) (e : String)
    (hs : p.startErr = none) (hw : p.waitErr = some e) :
    (execRun p).Err ≠ none ∧
    (getComboOutSoFar (execRun p) true).1
      = (captureLoop false p.stderrReads
          (captureLoop true p.stdoutReads newCaptureOuts)).lines ∧
    ((captureLoop false p.stderrReads
        (captureLoop true p.stdoutReads newCaptureOuts)).lines ≠ []
      → (getComboOutSoFar (execRun p) true).1 ≠ []) := by
  refine ⟨?_, ?_, ?_⟩ <;> simp [execRun, hs, hw, getComboOutSoFar]

/-- Witness for C8: the child prints `"hello\n"`, then exits with a
failure status. -/
theorem wait_failure_preserves_output_witness :
    (execRun ⟨none, eofReads ["hello\n"] "", eofReads [] "",
      some "exit status 1"⟩).Err ≠ none ∧
    (getComboOutSoFar (execRun ⟨none, eofReads ["hello\n"] "", eofReads [] "",
        some "exit status 1"⟩) true).1
      = (captureLoop false (eofReads [] "")
          (captureLoop true (eofReads ["hello\n"] "") newCaptureOuts)).lines :=
  ⟨(wait_failure_preserves_output ⟨none, eofReads ["hello\n"] "", eofReads [] "",
      some "exit status 1"⟩ "exit status 1" rfl rfl).1,
   (wait_failure_preserves_output ⟨none, eofReads ["hello\n"] "", eofReads [] "",
      some "exit status 1"⟩ "exit status 1" rfl rfl).2.1⟩

/-- C9: for every session state and either flag value, `BytesSoFar`
returns exactly the concatenation, in log order, of the lines returned
by `GetComboOutSoFar` on the same state. -/
theorem bytesSoFar_concat_snapshot (c : CaptureOuts) (b : Bool) :
    bytesSoFar c = String.join (getComboOutSoFar c b).1 := rfl

/-- C10: `GetComboOutSoFar` with the flag false returns the full copy of
the lines and a nil origin slice; with the flag true it returns copies
of both parallel logs, equal to the session state at that instant. -/
theorem snapshot_flag_semantics (c : CaptureOuts) :
    getComboOutSoFar c false = (c.lines, none) ∧
    getComboOutSoFar c true = (c.lines, some c.isStdErr) :=
  ⟨rfl, rfl⟩

end Capture
